import Mathlib

/-!
Verification development for the SpykeWave/SyNCoPy data-object and
virtual-storage layer (spykewave/datatype/data_classes.py and the Selector
behavior pinned by syncopy/tests/test_basedata.py).

The embedding models 2-D arrays as lists of rows (each row a list of
entries), Python exceptions as an explicit error kind, and the on-disk
state touched by copy/destruction as an association list from path to
file contents.
-/

namespace SpykeWave

/-- Semantic error kinds of the Python layer: `typeKind` stands for
SPWTypeError/SPYTypeError, `valueKind` for SPWValueError/SPYValueError,
`ioKind` for SPWIOError; `stopIteration` and `indexError` model the raw
Python StopIteration/IndexError exceptions that escape unhandled. -/
inductive ErrKind where
  | typeKind
  | valueKind
  | ioKind
  | stopIteration
  | indexError
deriving DecidableEq, Repr

/-- A 2-D array: a list of rows, each row a list of entries. -/
abbrev Mat (α : Type) := List (List α)

/-- Modelled from the spec: `spy_scalar_parser` (spykewave.utils, not among
the sources) validates an int-like scalar against the inclusive bounds
`lims = [lo, hi]`, raising the ValueKind error when the value lies outside. -/
def spyScalarParser (n lo hi : Int) : Except ErrKind Unit :=
  if n < lo ∨ hi < n then .error .valueKind else .ok ()

/-- A row or column index argument handed to `VirtualData.__getitem__`:
a number, a slice (the source reads only `.start`/`.stop` of a slice and
drops any step), or a value of any other type. -/
inductive IdxSpec where
  | num (n : Int)
  | slc (start stop : Option Int)
  | other
deriving DecidableEq, Repr

/-- First half of `VirtualData.__getitem__`: convert one index argument to
explicit slice bounds.  A number is parsed with `spy_scalar_parser`
(lims `[0, bound]`) and becomes the slice `(n, n+1)`; a slice has `None`
start/stop replaced by `0`/`bound`; any other type raises the TypeKind
error.  (Bounds are validated later, not here, exactly as in the source.) -/
def resolveSpec (bound : Nat) : IdxSpec → Except ErrKind (Int × Int)
  | .num n =>
      match spyScalarParser n 0 bound with
      | .error e => .error e
      | .ok _ => .ok (n, n + 1)
  | .slc st sp => .ok (st.getD 0, sp.getD bound)
  | .other => .error .typeKind

/-- The `VirtualData` state: the list of backing chunks (`_data`) and the
shared column count `N` (`chunk_list[0].shape[1]`). -/
structure VirtualData (α : Type) where
  chunks : List (Mat α)
  ncols : Nat
deriving DecidableEq, Repr

/-- Total row count `M = cumsum(nrows)[-1]`. -/
def vdM {α : Type} (vd : VirtualData α) : Nat :=
  (vd.chunks.map List.length).sum

/-- Models the chunk lookup `np.where([r in chunk for chunk in self._rows])`:
given a global row number, return the index of the chunk whose global row
range contains it together with the chunk-local row offset. -/
def locate {α : Type} : List (Mat α) → Nat → Option (Nat × Nat)
  | [], _ => none
  | c :: cs, r =>
      if r < c.length then some (0, r)
      else (locate cs (r - c.length)).map (fun il => (il.1 + 1, il.2))

/-- Application of the column slice `col = slice(cs, ce)` to one row. -/
def colSlice {α : Type} (cs ce : Nat) (r : List α) : List α :=
  (r.drop cs).take (ce - cs)

/-- Core of `VirtualData.__getitem__` after validation, for the resolved
row slice `[rs, re)` and column slice `[cs, ce)`.  `i1`/`i2` are the chunks
containing `rs` and `re - 1`.  If they coincide the row slice is translated
to chunk-local coordinates and the column slice applied; otherwise the tail
of chunk `i1`, every chunk strictly between `i1` and `i2` and the head of
chunk `i2` are stacked (`np.vstack`). -/
def vdBody {α : Type} (chunks : List (Mat α)) (rs re cs ce : Nat) : Mat α :=
  match locate chunks rs, locate chunks (re - 1) with
  | some i1l1, some i2l2 =>
      if i1l1.1 = i2l2.1 then
        (((chunks.getD i1l1.1 []).drop i1l1.2).take (re - rs)).map (colSlice cs ce)
      else
        (((chunks.getD i1l1.1 []).drop i1l1.2).map (colSlice cs ce))
          ++ (((chunks.drop (i1l1.1 + 1)).take (i2l2.1 - i1l1.1 - 1)).map
                (fun c => c.map (colSlice cs ce))).flatten
          ++ (((chunks.getD i2l2.1 []).take (i2l2.2 + 1)).map (colSlice cs ce))
  | _, _ => []

/-- `VirtualData.__getitem__(row, col)`: resolve the row argument, resolve
the column argument, then check `0 <= start < bound` and `0 < stop <= bound`
for the row and then the column slice (ValueKind error on violation), and
finally read the data.  The order of the four steps matches the source. -/
def vdGetItem {α : Type} (vd : VirtualData α) (rowSpec colSpec : IdxSpec) :
    Except ErrKind (Mat α) :=
  match resolveSpec (vdM vd) rowSpec with
  | .error e => .error e
  | .ok rowPair =>
      match resolveSpec vd.ncols colSpec with
      | .error e => .error e
      | .ok colPair =>
          if ¬(0 ≤ rowPair.1 ∧ rowPair.1 < (vdM vd : Int))
              ∨ ¬(0 < rowPair.2 ∧ rowPair.2 ≤ (vdM vd : Int)) then
            .error .valueKind
          else if ¬(0 ≤ colPair.1 ∧ colPair.1 < (vd.ncols : Int))
              ∨ ¬(0 < colPair.2 ∧ colPair.2 ≤ (vd.ncols : Int)) then
            .error .valueKind
          else
            .ok (vdBody vd.chunks rowPair.1.toNat rowPair.2.toNat
                  colPair.1.toNat colPair.2.toNat)

/-- The dense reference array: all chunks stacked vertically in chunk
order. -/
def vdRef {α : Type} (vd : VirtualData α) : Mat α :=
  vd.chunks.flatten

/-- Restriction of a dense 2-D array to the row range `[rs, re)` and the
column range `[cs, ce)`. -/
def matRegion {α : Type} (m : Mat α) (rs re cs ce : Nat) : Mat α :=
  ((m.drop rs).take (re - rs)).map (colSlice cs ce)

theorem locate_cons_lt {α : Type} (c : Mat α) (cs : List (Mat α)) (r : Nat)
    (h : r < c.length) : locate (c :: cs) r = some (0, r) := by
  simp [locate, h]

theorem locate_cons_ge {α : Type} (c : Mat α) (cs : List (Mat α)) (r : Nat)
    (h : ¬ r < c.length) :
    locate (c :: cs) r = (locate cs (r - c.length)).map (fun il => (il.1 + 1, il.2)) := by
  simp [locate, h]

/-- The chunk ranges partition `[0, M)`: every global row below the total
row count belongs to some chunk. -/
theorem locate_total {α : Type} :
    ∀ (cs : List (Mat α)) (r : Nat), r < (cs.map List.length).sum →
      ∃ jl : Nat × Nat, locate cs r = some jl
  | [], r, h => by simp at h
  | c :: cs, r, h => by
      by_cases hr : r < c.length
      · exact ⟨(0, r), locate_cons_lt c cs r hr⟩
      · have h2 : r - c.length < (cs.map List.length).sum := by
          simp only [List.map_cons, List.sum_cons] at h; omega
        obtain ⟨jl, hjl⟩ := locate_total cs (r - c.length) h2
        exact ⟨(jl.1 + 1, jl.2), by rw [locate_cons_ge c cs r hr, hjl]; rfl⟩

/-- Characterization of the head read: taking the first `r + 1` rows of the
stacked array equals all chunks before the chunk containing row `r`
followed by the head of that chunk up to the local offset of `r`. -/
theorem locate_take_flatten {α : Type} :
    ∀ (cs : List (Mat α)) (r j l : Nat), locate cs r = some (j, l) →
      cs.flatten.take (r + 1) = (cs.take j).flatten ++ (cs.getD j []).take (l + 1)
  | [], r, j, l, h => by simp [locate] at h
  | c :: cs, r, j, l, h => by
      by_cases hr : r < c.length
      · rw [locate_cons_lt c cs r hr] at h
        simp only [Option.some.injEq, Prod.mk.injEq] at h
        obtain ⟨hj, hl⟩ := h
        subst hj; subst hl
        rw [List.flatten_cons, List.take_append_eq_append_take,
          (by omega : r + 1 - c.length = 0), List.take_zero, List.append_nil]
        simp
      · rw [locate_cons_ge c cs r hr] at h
        cases hA : locate cs (r - c.length) with
        | none => rw [hA] at h; simp at h
        | some jl =>
            rw [hA] at h
            simp only [Option.map_some', Option.some.injEq, Prod.mk.injEq] at h
            obtain ⟨hj, hl⟩ := h
            subst hj; subst hl
            have ih := locate_take_flatten cs (r - c.length) jl.1 jl.2 (by rw [hA])
            rw [List.flatten_cons, List.take_append_eq_append_take,
              List.take_of_length_le (by omega : c.length ≤ r + 1),
              (by omega : r + 1 - c.length = (r - c.length) + 1), ih,
              List.take_succ_cons, List.flatten_cons, List.getD_cons_succ,
              List.append_assoc]

/-- Unfolding of `vdBody` when both chunk lookups succeed. -/
theorem vdBody_some {α : Type} (chunks : List (Mat α)) (rs re cs ce : Nat)
    (i1 l1 i2 l2 : Nat) (h1 : locate chunks rs = some (i1, l1))
    (h2 : locate chunks (re - 1) = some (i2, l2)) :
    vdBody chunks rs re cs ce =
      if i1 = i2 then
        (((chunks.getD i1 []).drop l1).take (re - rs)).map (colSlice cs ce)
      else
        (((chunks.getD i1 []).drop l1).map (colSlice cs ce))
          ++ (((chunks.drop (i1 + 1)).take (i2 - i1 - 1)).map
                (fun c => c.map (colSlice cs ce))).flatten
          ++ (((chunks.getD i2 []).take (l2 + 1)).map (colSlice cs ce)) := by
  unfold vdBody
  rw [h1, h2]

/-- Reading rows past the first chunk reduces to reading the remaining
chunks at shifted coordinates. -/
theorem vdBody_cons_ge {α : Type} (c : Mat α) (cks : List (Mat α)) (rs re cs ce : Nat)
    (hge : c.length ≤ rs) (hlt : rs < re) :
    vdBody (c :: cks) rs re cs ce = vdBody cks (rs - c.length) (re - c.length) cs ce := by
  have h1 := locate_cons_ge c cks rs (by omega)
  have h2 := locate_cons_ge c cks (re - 1) (by omega)
  rw [(by omega : re - 1 - c.length = re - c.length - 1)] at h2
  cases hA : locate cks (rs - c.length) with
  | none =>
      rw [hA] at h1
      simp only [Option.map_none'] at h1
      unfold vdBody
      rw [h1, hA]
  | some jl1 =>
      rw [hA] at h1
      simp only [Option.map_some'] at h1
      cases hB : locate cks (re - c.length - 1) with
      | none =>
          rw [hB] at h2
          simp only [Option.map_none'] at h2
          unfold vdBody
          rw [h1, h2, hA, hB]
      | some jl2 =>
          rw [hB] at h2
          simp only [Option.map_some'] at h2
          rw [vdBody_some (c :: cks) rs re cs ce _ _ _ _ h1 h2,
            vdBody_some cks (rs - c.length) (re - c.length) cs ce jl1.1 jl1.2 jl2.1 jl2.2
              (by rw [hA]) (by rw [hB])]
          by_cases hcase : jl1.1 = jl2.1
          · rw [if_pos (by omega), if_pos hcase,
              (by omega : re - rs = re - c.length - (rs - c.length))]
            rw [List.getD_cons_succ]
          · rw [if_neg (by omega), if_neg hcase]
            rw [List.getD_cons_succ, List.getD_cons_succ, List.drop_succ_cons,
              (by omega : jl2.1 + 1 - (jl1.1 + 1) - 1 = jl2.1 - jl1.1 - 1)]

/-- Correctness of the chunk-resolution algorithm: for a validated,
non-empty row range the data returned by `vdBody` is exactly the dense
stacked array restricted to that row range and column slice, whether the
range stays in one chunk or crosses chunk boundaries. -/
theorem vdBody_eq_region {α : Type} :
    ∀ (chunks : List (Mat α)) (rs re cs ce : Nat), rs < re →
      re ≤ (chunks.map List.length).sum →
      vdBody chunks rs re cs ce = matRegion chunks.flatten rs re cs ce
  | [], _, _, _, _, h1, h2 => by simp at h2; omega
  | c :: cks, rs, re, cs, ce, h1, h2 => by
      have hsum : re ≤ c.length + (cks.map List.length).sum := by
        simpa using h2
      by_cases hrs : rs < c.length
      · by_cases hre : re - 1 < c.length
        · -- row range entirely within the first chunk
          rw [vdBody_some (c :: cks) rs re cs ce 0 rs 0 (re - 1)
              (locate_cons_lt c cks rs hrs) (locate_cons_lt c cks (re - 1) hre),
            if_pos rfl]
          unfold matRegion
          rw [List.flatten_cons, List.drop_append_eq_append_drop,
            (by omega : rs - c.length = 0), List.drop_zero,
            List.take_append_eq_append_take, List.length_drop,
            (by omega : re - rs - (c.length - rs) = 0), List.take_zero,
            List.append_nil]
          simp
        · -- row range crosses into later chunks
          have htot : re - 1 - c.length < (cks.map List.length).sum := by omega
          obtain ⟨⟨j, l⟩, hjl⟩ := locate_total cks (re - 1 - c.length) htot
          have h2' : locate (c :: cks) (re - 1) = some (j + 1, l) := by
            rw [locate_cons_ge c cks (re - 1) (by omega), hjl]; rfl
          have hregion : matRegion ((c :: cks).flatten) rs re cs ce =
              ((c.drop rs).map (colSlice cs ce))
                ++ (((cks.take j).map (fun ck => ck.map (colSlice cs ce))).flatten
                ++ (((cks.getD j []).take (l + 1)).map (colSlice cs ce))) := by
            unfold matRegion
            rw [List.flatten_cons, List.drop_append_eq_append_drop,
              (by omega : rs - c.length = 0), List.drop_zero,
              List.take_append_eq_append_take, List.length_drop,
              List.take_of_length_le
                (by rw [List.length_drop]; omega : (c.drop rs).length ≤ re - rs),
              (by omega : re - rs - (c.length - rs) = (re - 1 - c.length) + 1),
              locate_take_flatten cks (re - 1 - c.length) j l hjl]
            simp only [List.map_append, List.map_flatten, List.append_assoc]
          rw [vdBody_some (c :: cks) rs re cs ce 0 rs (j + 1) l
              (locate_cons_lt c cks rs hrs) h2', if_neg (by omega), hregion]
          simp only [List.getD_cons_zero, List.getD_cons_succ, List.drop_succ_cons,
            List.drop_zero, List.append_assoc]
          rw [(by omega : j + 1 - 0 - 1 = j)]
      · -- row range starts past the first chunk
        rw [vdBody_cons_ge c cks rs re cs ce (by omega) h1,
          vdBody_eq_region cks (rs - c.length) (re - c.length) cs ce
            (by omega) (by omega)]
        unfold matRegion
        rw [List.flatten_cons, List.drop_append_eq_append_drop,
          List.drop_of_length_le (by omega : c.length ≤ rs),
          List.nil_append,
          (by omega : re - rs = re - c.length - (rs - c.length))]

theorem resolveSpec_num_err (bound : Nat) (n : Int)
    (h : n < 0 ∨ (bound : Int) < n) :
    resolveSpec bound (.num n) = .error .valueKind := by
  simp only [resolveSpec, spyScalarParser]
  rw [if_pos h]

theorem resolveSpec_num_ok (bound : Nat) (n : Int)
    (h : ¬(n < 0 ∨ (bound : Int) < n)) :
    resolveSpec bound (.num n) = .ok (n, n + 1) := by
  simp only [resolveSpec, spyScalarParser]
  rw [if_neg h]

theorem vdGetItem_row_err {α : Type} (vd : VirtualData α)
    (rowSpec colSpec : IdxSpec) (e : ErrKind)
    (h : resolveSpec (vdM vd) rowSpec = .error e) :
    vdGetItem vd rowSpec colSpec = .error e := by
  unfold vdGetItem
  rw [h]

theorem vdGetItem_col_err {α : Type} (vd : VirtualData α)
    (rowSpec colSpec : IdxSpec) (rp : Int × Int) (e : ErrKind)
    (hr : resolveSpec (vdM vd) rowSpec = .ok rp)
    (hc : resolveSpec vd.ncols colSpec = .error e) :
    vdGetItem vd rowSpec colSpec = .error e := by
  unfold vdGetItem
  rw [hr, hc]

theorem vdGetItem_checks {α : Type} (vd : VirtualData α)
    (rowSpec colSpec : IdxSpec) (rp cp : Int × Int)
    (hr : resolveSpec (vdM vd) rowSpec = .ok rp)
    (hc : resolveSpec vd.ncols colSpec = .ok cp) :
    vdGetItem vd rowSpec colSpec =
      if ¬(0 ≤ rp.1 ∧ rp.1 < (vdM vd : Int))
          ∨ ¬(0 < rp.2 ∧ rp.2 ≤ (vdM vd : Int)) then
        .error .valueKind
      else if ¬(0 ≤ cp.1 ∧ cp.1 < (vd.ncols : Int))
          ∨ ¬(0 < cp.2 ∧ cp.2 ≤ (vd.ncols : Int)) then
        .error .valueKind
      else
        .ok (vdBody vd.chunks rp.1.toNat rp.2.toNat cp.1.toNat cp.2.toNat) := by
  unfold vdGetItem
  rw [hr, hc]

/-- C1 (amended): for every VirtualArray and every row/col spec that passes
validation and whose resolved row range is non-empty (start < stop),
`__getitem__` returns exactly the dense reference array (all chunks stacked
vertically in chunk order) restricted to that row range and column slice
- covering both the single-chunk branch and the chunk-crossing vstack
branch.  (The original claim, quantified over every spec that merely passes
validation, fails: a slice whose resolved start is at or past its resolved
stop also passes validation, see the counterexample.) -/
theorem vd_getitem_matches_reference {α : Type} (vd : VirtualData α)
    (rowSpec colSpec : IdxSpec) (r0 r1 c0 c1 : Int)
    (hr : resolveSpec (vdM vd) rowSpec = .ok (r0, r1))
    (hc : resolveSpec vd.ncols colSpec = .ok (c0, c1))
    (hr0 : 0 ≤ r0) (hr1 : r1 ≤ (vdM vd : Int)) (hlt : r0 < r1)
    (hc0 : 0 ≤ c0) (hc0' : c0 < (vd.ncols : Int))
    (hc1 : 0 < c1) (hc1' : c1 ≤ (vd.ncols : Int)) :
    vdGetItem vd rowSpec colSpec =
      .ok (matRegion (vdRef vd) r0.toNat r1.toNat c0.toNat c1.toNat) := by
  rw [vdGetItem_checks vd rowSpec colSpec (r0, r1) (c0, c1) hr hc]
  rw [if_neg (by push_neg; omega), if_neg (by push_neg; omega)]
  have hM : vdM vd = (vd.chunks.map List.length).sum := rfl
  rw [vdBody_eq_region vd.chunks r0.toNat r1.toNat c0.toNat c1.toNat
    (by omega) (by omega)]
  rfl

/-- Concrete two-chunk VirtualArray used as test bed: chunks of shapes
(3, 2) and (3, 2), stacked shape (6, 2). -/
def vdWitness : VirtualData Int :=
  { chunks := [[[1, 2], [3, 4], [5, 6]], [[7, 8], [9, 10], [11, 12]]], ncols := 2 }

/-- Witness for C1 (amended): the row range [2, 5) crosses both chunks and
the returned rows are exactly rows 2, 3, 4 of the stacked reference. -/
theorem vd_getitem_matches_reference_witness :
    vdGetItem vdWitness (.slc (some 2) (some 5)) (.slc none none) =
      .ok [[5, 6], [7, 8], [9, 10]] := by
  have h := vd_getitem_matches_reference vdWitness
    (.slc (some 2) (some 5)) (.slc none none) 2 5 0 2 rfl rfl
    (by decide) (by decide) (by decide) (by decide) (by decide)
    (by decide) (by decide)
  rw [h]
  rfl

/-- Counterexample for C1 as frozen: the row spec slice(4, 1) passes
validation (4 and 1 individually satisfy the bound checks) but the returned
value is the vstack of the tail of chunk 1 and the head of chunk 0 - not
the dense reference restricted to the (empty) row range [4, 1). -/
theorem vd_getitem_claim_counterexample :
    vdGetItem vdWitness (.slc (some 4) (some 1)) (.slc none none) =
      .ok [[9, 10], [11, 12], [1, 2]]
    ∧ matRegion (vdRef vdWitness) 4 1 0 2 = []
    ∧ ([[9, 10], [11, 12], [1, 2]] : Mat Int) ≠ [] := by
  refine ⟨rfl, rfl, by decide⟩

/-- C2 (amended): a row or column index that is out of range (a negative
number, a number at or past the bound, or a slice whose resolved start or
stop violates 0 <= start < bound or 0 < stop <= bound) raises the ValueKind
error, and a row or column index that is neither numeric nor a slice raises
the TypeKind error.  (The original claim also demanded ValueKind for a
slice whose resolved start is at or past its resolved stop; such a slice in
fact passes validation, see the counterexample.) -/
theorem vd_getitem_error_kinds {α : Type} (vd : VirtualData α)
    (colSpec : IdxSpec) (n m : Int) (st sp : Option Int) :
    ((n < 0 ∨ (vdM vd : Int) ≤ n) →
      vdGetItem vd (.num n) (.slc none none) = .error .valueKind)
    ∧ ((st.getD 0 < 0 ∨ (vdM vd : Int) ≤ st.getD 0
        ∨ sp.getD (vdM vd : Int) ≤ 0 ∨ (vdM vd : Int) < sp.getD (vdM vd : Int)) →
      vdGetItem vd (.slc st sp) (.slc none none) = .error .valueKind)
    ∧ (0 < vdM vd → (m < 0 ∨ (vd.ncols : Int) ≤ m) →
      vdGetItem vd (.slc none none) (.num m) = .error .valueKind)
    ∧ (0 < vdM vd →
      (st.getD 0 < 0 ∨ (vd.ncols : Int) ≤ st.getD 0
        ∨ sp.getD (vd.ncols : Int) ≤ 0 ∨ (vd.ncols : Int) < sp.getD (vd.ncols : Int)) →
      vdGetItem vd (.slc none none) (.slc st sp) = .error .valueKind)
    ∧ (vdGetItem vd .other colSpec = .error .typeKind)
    ∧ (vdGetItem vd (.slc st sp) .other = .error .typeKind) := by
  refine ⟨?_, ?_, ?_, ?_, ?_, ?_⟩
  · intro h
    by_cases hp : n < 0 ∨ (vdM vd : Int) < n
    · exact vdGetItem_row_err vd (.num n) (.slc none none) .valueKind
        (resolveSpec_num_err (vdM vd) n hp)
    · rw [vdGetItem_checks vd (.num n) (.slc none none) (n, n + 1)
        ((0 : Int), (vd.ncols : Int)) (resolveSpec_num_ok (vdM vd) n hp) rfl]
      rw [if_pos (by push_neg; omega)]
  · intro h
    rw [vdGetItem_checks vd (.slc st sp) (.slc none none)
      (st.getD 0, sp.getD (vdM vd : Int)) ((0 : Int), (vd.ncols : Int)) rfl rfl]
    rw [if_pos (by omega)]
  · intro hM h
    by_cases hp : m < 0 ∨ (vd.ncols : Int) < m
    · exact vdGetItem_col_err vd (.slc none none) (.num m)
        ((0 : Int), (vdM vd : Int)) .valueKind rfl (resolveSpec_num_err vd.ncols m hp)
    · rw [vdGetItem_checks vd (.slc none none) (.num m)
        ((0 : Int), (vdM vd : Int)) (m, m + 1) rfl (resolveSpec_num_ok vd.ncols m hp)]
      rw [if_neg (by push_neg; omega), if_pos (by push_neg; omega)]
  · intro hM h
    rw [vdGetItem_checks vd (.slc none none) (.slc st sp)
      ((0 : Int), (vdM vd : Int)) (st.getD 0, sp.getD (vd.ncols : Int)) rfl rfl]
    rw [if_neg (by push_neg; omega), if_pos (by omega)]
  · exact vdGetItem_row_err vd .other colSpec .typeKind rfl
  · exact vdGetItem_col_err vd (.slc st sp) .other
      (st.getD 0, sp.getD (vdM vd : Int)) .typeKind rfl rfl

/-- Witness for C2 (amended), exercising all six error paths on the
concrete two-chunk VirtualArray. -/
theorem vd_getitem_error_kinds_witness :
    vdGetItem vdWitness (.num (-1)) (.slc none none) = .error .valueKind
    ∧ vdGetItem vdWitness (.slc (some 80) none) (.slc none none) = .error .valueKind
    ∧ vdGetItem vdWitness (.slc none none) (.num 2) = .error .valueKind
    ∧ vdGetItem vdWitness (.slc none none) (.slc (some 80) none) = .error .valueKind
    ∧ vdGetItem vdWitness .other (.slc none none) = .error .typeKind
    ∧ vdGetItem vdWitness (.slc (some 80) none) .other = .error .typeKind := by
  have h := vd_getitem_error_kinds vdWitness (.slc none none) (-1) 2 (some 80) none
  exact ⟨h.1 (by decide), h.2.1 (by decide), h.2.2.1 (by decide) (by decide),
    h.2.2.2.1 (by decide) (by decide), h.2.2.2.2.1, h.2.2.2.2.2⟩

/-- Counterexample for C2 as frozen: the row spec slice(2, 1) has resolved
start at or past its resolved stop, yet `__getitem__` does not raise the
ValueKind error - both bounds individually pass validation and an empty
array is returned. -/
theorem vd_getitem_degenerate_slice_counterexample :
    vdGetItem vdWitness (.slc (some 2) (some 1)) (.slc none none) = .ok []
    ∧ vdGetItem vdWitness (.slc (some 2) (some 1)) (.slc none none) ≠ .error .valueKind := by
  have h1 : vdGetItem vdWitness (.slc (some 2) (some 1)) (.slc none none) =
      .ok ([] : Mat Int) := rfl
  exact ⟨h1, by rw [h1]; exact fun h => Except.noConfusion h⟩

/-! ## Indexer -/

/-- The `Indexer` state: `_iterobj` is the one-shot underlying iterator,
modelled by the list of elements it has not yet produced, and `_iterlen`
is the declared length, fixed at construction.  Element type `α` stands
for one per-trial array. -/
structure Indexer (α : Type) where
  iterobj : List α
  iterlen : Nat
deriving DecidableEq, Repr

/-- Integer branch of `Indexer.__getitem__`: `spy_scalar_parser` validates
the index against lims `[0, _iterlen - 1]` (ValueKind error outside), then
`next(islice(self._iterobj, idx, idx + 1))` skips `idx` elements of the
underlying iterator relative to its current position and consumes one more;
an exhausted iterator raises StopIteration.  Returns the element and the
advanced iterator state. -/
def Indexer.getNum {α : Type} (ind : Indexer α) (idx : Int) :
    Except ErrKind (α × Indexer α) :=
  match spyScalarParser idx 0 ((ind.iterlen : Int) - 1) with
  | .error e => .error e
  | .ok _ =>
      match ind.iterobj.drop idx.toNat with
      | [] => .error .stopIteration
      | x :: rest => .ok (x, { iterobj := rest, iterlen := ind.iterlen })

/-- Slice branch of `Indexer.__getitem__`: `None` bounds default to
`0`/`_iterlen`, the resolved bounds must satisfy `0 <= start < _iterlen`
and `0 < stop <= _iterlen` (ValueKind error otherwise), and
`np.hstack(islice(self._iterobj, start, stop))` stacks the elements the
iterator yields in that range, consuming the iterator up to `stop`.
(The source forwards `idx.step` to `islice` unchanged; the unit step of a
plain `[start:stop]` slice is modelled.)  Returns the stacked elements and
the advanced iterator state. -/
def Indexer.getSlice {α : Type} (ind : Indexer α) (start stop : Option Int) :
    Except ErrKind (List α × Indexer α) :=
  let s := start.getD 0
  let e := stop.getD (ind.iterlen : Int)
  if ¬(0 ≤ s ∧ s < (ind.iterlen : Int)) ∨ ¬(0 < e ∧ e ≤ (ind.iterlen : Int)) then
    .error .valueKind
  else
    .ok ((ind.iterobj.drop s.toNat).take (e - s).toNat,
      { iterobj := ind.iterobj.drop e.toNat, iterlen := ind.iterlen })

/-- Reading a sequence of integer indices one after the other on the same
`Indexer`, threading the shared iterator state; the result collects the
returned elements in order. -/
def indexEach {α : Type} (ind : Indexer α) : List Int → Except ErrKind (List α)
  | [] => .ok []
  | i :: is =>
      match ind.getNum i with
      | .error e => .error e
      | .ok (x, ind') =>
          match indexEach ind' is with
          | .error e => .error e
          | .ok xs => .ok (x :: xs)

/-- A fresh `Indexer` over the full element list `es`, as the `trials`
property builds one: `Indexer(map(self._get_trial, range(n)), n)`. -/
def freshIndexer {α : Type} (es : List α) : Indexer α :=
  { iterobj := es, iterlen := es.length }

theorem indexer_getNum_eq {α : Type} (obj : List α) (L j : Nat) (hj : j < L)
    (x : α) (rest : List α) (hd : obj.drop j = x :: rest) :
    (Indexer.mk obj L).getNum (j : Int) = .ok (x, Indexer.mk rest L) := by
  unfold Indexer.getNum spyScalarParser
  dsimp only
  rw [if_neg (by push_neg; constructor <;> omega), Int.toNat_natCast, hd]

theorem indexer_getNum_fresh {α : Type} (es : List α) (i : Nat)
    (hi : i < es.length) :
    (freshIndexer es).getNum (i : Int) =
      .ok (es.get ⟨i, hi⟩, Indexer.mk (es.drop (i + 1)) es.length) :=
  indexer_getNum_eq es es.length i hi (es.get ⟨i, hi⟩) (es.drop (i + 1))
    (by rw [List.drop_eq_getElem_cons hi]; rfl)

/-- C3 (amended): indexing the integers 0..L-1 one by one on a single
shared `Indexer` does not reproduce the declared sequence: the accesses
consume the shared one-shot iterator, so the enumeration diverges from the
full-slice materialization `[0:L]` (which on a fresh Indexer returns
exactly the whole sequence).  The equality claimed by the spec does hold
when every integer access is made on a freshly constructed Indexer, as the
`trials` property produces one per access. -/
theorem indexer_fresh_enumeration_eq_slice {α : Type} (es : List α)
    (h : 0 < es.length) :
    ((List.range es.length).map
        (fun (i : Nat) => ((freshIndexer es).getNum (i : Int)).map Prod.fst))
      = es.map Except.ok
    ∧ ((freshIndexer es).getSlice (some 0) (some (es.length : Int))).map Prod.fst
      = .ok es := by
  constructor
  · apply List.ext_getElem
    · simp
    · intro i h1 h2
      have hi : i < es.length := by simpa using h2
      simp only [List.getElem_map, List.getElem_range]
      rw [indexer_getNum_fresh es i hi]
      simp [Except.map]
  · unfold Indexer.getSlice
    dsimp only [freshIndexer]
    have hcond : ¬(¬(0 ≤ (some (0 : Int)).getD 0
          ∧ (some (0 : Int)).getD 0 < (es.length : Int))
        ∨ ¬(0 < (some (es.length : Int)).getD (es.length : Int)
          ∧ (some (es.length : Int)).getD (es.length : Int) ≤ (es.length : Int))) := by
      simp only [Option.getD_some]
      push_neg
      exact ⟨⟨by omega, by omega⟩, by omega, by omega⟩
    rw [if_neg hcond]
    simp [Except.map]

/-- Witness for C3 (amended) on a concrete three-element sequence. -/
theorem indexer_fresh_enumeration_witness :
    ((List.range 3).map
        (fun (i : Nat) => ((freshIndexer [10, 20, 30]).getNum (i : Int)).map Prod.fst))
      = [.ok 10, .ok 20, .ok 30]
    ∧ ((freshIndexer [10, 20, 30]).getSlice (some 0) (some 3)).map Prod.fst
      = .ok [10, 20, 30] := by
  have h := indexer_fresh_enumeration_eq_slice [10, 20, 30] (by decide)
  exact ⟨h.1, h.2⟩

/-- Counterexample for C3 as frozen: on a single Indexer of declared
length 2 over the sequence [0, 1], indexing 0 then 1 raises StopIteration
(the second access skips past the exhausted shared iterator), while the
full slice [0:2] on a fresh Indexer returns the whole sequence. -/
theorem indexer_shared_enumeration_counterexample :
    indexEach (freshIndexer [0, 1]) [0, 1] = .error .stopIteration
    ∧ ((freshIndexer [0, 1]).getSlice (some 0) (some 2)).map Prod.fst
        = .ok [0, 1]
    ∧ (Except.error (α := List Nat) ErrKind.stopIteration) ≠ .ok [0, 1] := by
  refine ⟨rfl, rfl, fun h => Except.noConfusion h⟩

/-- C10: integer indexing consumes the single shared underlying iterator
and skips relative to the iterator's current position, not from position 0:
a fresh access at i returns element i and leaves the iterator past it, and
a subsequent access at j (with i + 1 + j < L) returns element i + 1 + j of
the original sequence rather than element j. -/
theorem indexer_shared_skip_consumes {α : Type} (es : List α) (i j : Nat)
    (hi : i < es.length) (hj : i + 1 + j < es.length) :
    (freshIndexer es).getNum (i : Int) =
      .ok (es.get ⟨i, hi⟩, Indexer.mk (es.drop (i + 1)) es.length)
    ∧ (Indexer.mk (es.drop (i + 1)) es.length).getNum (j : Int)
      = .ok (es.get ⟨i + 1 + j, hj⟩, Indexer.mk (es.drop (i + 1 + j + 1)) es.length) := by
  refine ⟨indexer_getNum_fresh es i hi, ?_⟩
  apply indexer_getNum_eq (es.drop (i + 1)) es.length j (by omega)
  have hdd : (es.drop (i + 1)).drop j = es.drop (i + 1 + j) := by
    rw [List.drop_drop]
  rw [hdd, List.drop_eq_getElem_cons (show i + 1 + j < es.length from hj)]
  rfl

/-- Witness for C10: on the sequence [10, 20, 30, 40], a fresh access at 1
returns 20, and a subsequent access at 1 on the same Indexer returns 40
(element 1 + 1 + 1 = 3 of the original sequence), not 20. -/
theorem indexer_shared_skip_consumes_witness :
    (freshIndexer [10, 20, 30, 40]).getNum (1 : Int)
        = .ok (20, Indexer.mk [30, 40] 4)
    ∧ (Indexer.mk [30, 40] 4).getNum (1 : Int) = .ok (40, Indexer.mk [] 4) := by
  have h := indexer_shared_skip_consumes [10, 20, 30, 40] 1 1 (by decide) (by decide)
  exact ⟨h.1, h.2⟩

/-! ## Selector -/

/-- A user-supplied per-axis selector value: a list of label strings, a
list of integer positions, a Python `range`, a slice, `None`, or a value
of any other type. -/
inductive SelVal where
  | strs (ls : List String)
  | ints (ps : List Int)
  | rng (start stop step : Int)
  | slc (start stop step : Option Int)
  | non
  | other
deriving DecidableEq, Repr

/-- A canonical selection: an explicit ordered position list, or a slice
with its original (possibly `None`, possibly negative) bounds and an
explicit step. -/
inductive SelResult where
  | list (ps : List Int)
  | slc (start stop : Option Int) (step : Int)
deriving DecidableEq, Repr

/-- Boolean test that consecutive differences of the position list all
equal `d`. -/
def stepConst : List Int → Int → Bool
  | [], _ => true
  | [_], _ => true
  | p :: q :: rest, d => (q - p == d) && stepConst (q :: rest) d

/-- Modelled from the spec: canonicalization of a position list (the
Selector implementation is absent from the sources).  A run with constant
positive step - including a single position - canonicalizes to a slice;
any other list (non-constant step, descending, duplicates) is kept as the
explicit ordered list.  Pinned by TestSelector.selectDict in
syncopy/tests/test_basedata.py: [0,1,2,3] becomes slice(0,4,1) while
[2,3,5], [4,2,5] and [1,0] stay lists. -/
def canonicalizeList (ps : List Int) : SelResult :=
  match ps with
  | [] => .list []
  | p :: rest =>
      let d := match rest with
        | [] => 1
        | q :: _ => q - p
      if 1 ≤ d ∧ stepConst (p :: rest) d = true then
        .slc (some p) (some (p + d * (rest.length + 1))) d
      else .list ps

/-- Modelled from the spec: per-axis validation and canonicalization of the
Selector (its implementation is absent from the sources; its behavior is
pinned by the expectations of TestSelector.selectDict and
TestSelector.test_general in syncopy/tests/test_basedata.py).
A label list is mapped to the 0-based positions of the labels in the given
order (ValueKind error on an unknown label); a position list must lie in
[-L, L) (ValueKind error otherwise) and is canonicalized; a range within
bounds becomes an explicit slice; a slice is validated after resolving
negative bounds against the axis length, and the canonical slice keeps the
original bounds, materializing step 1 when unspecified; None selects the
whole axis; any other value raises the TypeKind error. -/
def selectorAxis (labels : List String) (v : SelVal) : Except ErrKind SelResult :=
  let L : Int := labels.length
  match v with
  | .strs ls =>
      if ∀ s ∈ ls, s ∈ labels then
        .ok (.list (ls.map (fun s => (labels.indexOf s : Int))))
      else .error .valueKind
  | .ints ps =>
      if ∀ p ∈ ps, -L ≤ p ∧ p < L then .ok (canonicalizeList ps)
      else .error .valueKind
  | .rng a b s =>
      if 0 ≤ a ∧ a < L ∧ 0 < b ∧ b ≤ L then .ok (.slc (some a) (some b) s)
      else .error .valueKind
  | .slc st sp stp =>
      let rs := match st with
        | some x => if x < 0 then x + L else x
        | none => 0
      let re := match sp with
        | some x => if x < 0 then x + L else x
        | none => L
      if 0 ≤ rs ∧ rs < L ∧ 0 < re ∧ re ≤ L ∧ rs < re then
        .ok (.slc st sp (stp.getD 1))
      else .error .valueKind
  | .non => .ok (.slc none none 1)
  | .other => .error .typeKind

/-- The channel labels of the ten-channel test object of TestSelector
(channel1 .. channel10). -/
def channelLabels : List String :=
  ["channel1", "channel2", "channel3", "channel4", "channel5",
   "channel6", "channel7", "channel8", "channel9", "channel10"]

/-- The valid channel selections of TestSelector.selectDict
(syncopy/tests/test_basedata.py), in order. -/
def channelValid : List SelVal :=
  [.strs ["channel3", "channel1"],
   .ints [4, 2, 5],
   .rng 0 3 1,
   .rng 5 8 1,
   .slc none none none,
   .slc (some 0) (some 5) none,
   .slc (some 7) none none,
   .slc (some 2) (some 8) none,
   .slc (some 0) (some 10) (some 2),
   .slc (some (-2)) none none,
   .ints [0, 1, 2, 3],
   .ints [2, 3, 5]]

/-- The expected results for `channelValid` of TestSelector.selectDict, in
order. -/
def channelExpected : List SelResult :=
  [.list [2, 0],
   .list [4, 2, 5],
   .slc (some 0) (some 3) 1,
   .slc (some 5) (some 8) 1,
   .slc none none 1,
   .slc (some 0) (some 5) 1,
   .slc (some 7) none 1,
   .slc (some 2) (some 8) 1,
   .slc (some 0) (some 10) 2,
   .slc (some (-2)) none 1,
   .slc (some 0) (some 4) 1,
   .list [2, 3, 5]]

/-- The invalid channel selections of TestSelector.selectDict, in order. -/
def channelInvalid : List SelVal :=
  [.strs ["channel200", "channel400"],
   .strs ["invalid"],
   .other,
   .rng 0 100 1,
   .slc (some 80) none none,
   .slc (some (-20)) none none,
   .slc (some (-15)) (some (-2)) none,
   .slc (some 5) (some 1) none,
   .ints [40, 60, 80]]

/-- The expected error kinds for `channelInvalid` of
TestSelector.selectDict, in order. -/
def channelErrors : List ErrKind :=
  [.valueKind, .valueKind, .typeKind, .valueKind, .valueKind,
   .valueKind, .valueKind, .valueKind, .valueKind]

/-- The Selector model reproduces the full channel expectation table of
TestSelector.selectDict: every valid selection canonicalizes to the
expected result and every invalid selection raises the expected error
kind. -/
theorem selector_matches_test_table :
    channelValid.map (selectorAxis channelLabels) = channelExpected.map .ok
    ∧ channelInvalid.map (selectorAxis channelLabels) = channelErrors.map .error := by
  constructor <;> rfl

/-- Counterexample for C4 as frozen: on the ten-channel axis the input
slice(-2, None) canonicalizes to slice(-2, None, 1) - exactly what entry 9
of the test expectation table demands - and not to slice(8, 10, 1). -/
theorem selector_negative_slice_counterexample :
    selectorAxis channelLabels (.slc (some (-2)) none none)
      = .ok (.slc (some (-2)) none 1)
    ∧ channelExpected.getD 9 (.list []) = .slc (some (-2)) none 1
    ∧ selectorAxis channelLabels (.slc (some (-2)) none none)
      ≠ .ok (.slc (some 8) (some 10) 1) := by
  have h0 : selectorAxis channelLabels (.slc (some (-2)) none none)
      = .ok (.slc (some (-2)) none 1) := rfl
  exact ⟨h0, rfl, fun h => absurd (Except.ok.inj (h0.symm.trans h)) (by decide)⟩

/-- C4 (amended): for a Selector bound to an object with a 10-element
channel axis, the input slice(-2, None) is canonicalized to
slice(-2, None, 1): the negative start is resolved against the axis length
only to validate the bounds, while the canonical slice keeps the original
start/stop verbatim, and an explicit step of 1 is materialized when
unspecified.  This is entry 9 of the expectation table of
TestSelector.selectDict. -/
theorem selector_negative_slice_canonical :
    selectorAxis channelLabels (.slc (some (-2)) none none)
      = .ok (.slc (some (-2)) none 1)
    ∧ selectorAxis channelLabels (.slc (some (-2)) none none)
      = .ok (channelExpected.getD 9 (.list [])) :=
  ⟨rfl, rfl⟩

/-- C5: for the Selector on the ten-channel axis with labels
channel1..channel10: a label list yields the corresponding 0-based
positions in the given input order; the contiguous position list
[0, 1, 2, 3] canonicalizes to slice(0, 4, 1); the non-contiguous position
list [2, 3, 5] is returned as the list unchanged; any position list
containing a position at or beyond 10 or below -10 raises the ValueKind
error; and a selector value that is not a list, slice, range, or None
raises the TypeKind error. -/
theorem selector_channel_axis_spec :
    selectorAxis channelLabels (.strs ["channel3", "channel1"]) = .ok (.list [2, 0])
    ∧ selectorAxis channelLabels (.ints [0, 1, 2, 3]) = .ok (.slc (some 0) (some 4) 1)
    ∧ selectorAxis channelLabels (.ints [2, 3, 5]) = .ok (.list [2, 3, 5])
    ∧ (∀ (p : Int) (ps : List Int), ((10 : Int) ≤ p ∨ p < -10) → p ∈ ps →
        selectorAxis channelLabels (.ints ps) = .error .valueKind)
    ∧ selectorAxis channelLabels .other = .error .typeKind := by
  refine ⟨rfl, rfl, rfl, ?_, rfl⟩
  intro p ps hp hmem
  have h10 : channelLabels.length = 10 := rfl
  unfold selectorAxis
  dsimp only
  rw [if_neg ?hc]
  case hc =>
    intro hall
    have hb := hall p hmem
    omega

/-- Witness for C5: the out-of-range position list [40, 60, 80] of the
test table raises the ValueKind error. -/
theorem selector_channel_axis_spec_witness :
    selectorAxis channelLabels (.ints [40, 60, 80]) = .error .valueKind :=
  selector_channel_axis_spec.2.2.2.1 40 [40, 60, 80] (by decide) (by decide)

/-! ## VirtualData construction -/

/-- Shape-and-dtype description of one chunk handed to the `VirtualData`
constructor; `dtype` is the position of the chunk element type in the
numeric promotion order, so that `np.max` over dtypes picks the widest
type. -/
structure NpChunk where
  shape : List Nat
  dtype : Nat
deriving DecidableEq, Repr

/-- The dimensional attributes computed by `VirtualData.__init__`. -/
structure VDMeta where
  M : Nat
  N : Nat
  shape : Nat × Nat
  size : Nat
  dtype : Nat
deriving DecidableEq, Repr

/-- `VirtualData.__init__` over the chunk shapes and dtypes: every chunk
must be 2-D (ValueKind error otherwise); an empty chunk list crashes with a
raw IndexError when `shapes[0][1]` is read; the column counts must agree
across chunks (ValueKind error); then `M` is the cumulative row sum
(`cumsum(nrows)[-1]`), `N` the shared column count, `shape = (M, N)`,
`size = M * N` and `dtype` the `np.max` of the chunk dtypes. -/
def vdInit (chunkList : List NpChunk) : Except ErrKind VDMeta :=
  if chunkList.any (fun c => c.shape.length != 2) then .error .valueKind
  else
    match chunkList with
    | [] => .error .indexError
    | c0 :: _ =>
        if chunkList.any (fun c => c.shape.getD 1 0 != c0.shape.getD 1 0) then
          .error .valueKind
        else
          let nrows := chunkList.map (fun c => c.shape.getD 0 0)
          let M := nrows.sum
          let N := c0.shape.getD 1 0
          .ok { M := M, N := N, shape := (M, N), size := M * N,
                dtype := ((chunkList.map NpChunk.dtype).max?).getD 0 }

/-- C6: for every VirtualArray constructed from a valid (non-empty) list
of 2-D chunks with matching column counts, its shape equals (sum of the
chunk row counts, shared column count), its size equals that product, and
its element type equals the widest element type among the chunks (it is
one of the chunk dtypes and every chunk dtype is at most it). -/
theorem vd_init_shape_size_dtype (chunkList : List NpChunk) (c0 : NpChunk)
    (rest : List NpChunk) (hne : chunkList = c0 :: rest)
    (h2d : ∀ c ∈ chunkList, c.shape.length = 2)
    (hcols : ∀ c ∈ chunkList, c.shape.getD 1 0 = c0.shape.getD 1 0) :
    ∃ meta : VDMeta, vdInit chunkList = .ok meta
      ∧ meta.shape = ((chunkList.map (fun c => c.shape.getD 0 0)).sum,
          c0.shape.getD 1 0)
      ∧ meta.size = (chunkList.map (fun c => c.shape.getD 0 0)).sum
          * c0.shape.getD 1 0
      ∧ meta.dtype ∈ chunkList.map NpChunk.dtype
      ∧ ∀ d ∈ chunkList.map NpChunk.dtype, d ≤ meta.dtype := by
  subst hne
  unfold vdInit
  rw [if_neg ?h2]
  case h2 =>
    simp only [List.any_eq_true, bne_iff_ne]
    push_neg
    exact h2d
  dsimp only
  rw [if_neg ?hcol]
  case hcol =>
    simp only [List.any_eq_true, bne_iff_ne]
    push_neg
    exact hcols
  cases hmax : ((c0 :: rest).map NpChunk.dtype).max? with
  | none =>
      rw [List.max?_eq_none_iff] at hmax
      exact absurd hmax (by simp)
  | some a =>
      refine ⟨_, rfl, rfl, rfl, ?_, ?_⟩
      · dsimp only
        rw [Option.getD_some]
        exact List.max?_mem (fun a b => max_choice a b) hmax
      · intro d hd
        dsimp only
        rw [Option.getD_some]
        exact (List.max?_le_iff (fun a b c => Nat.max_le) hmax).mp le_rfl d hd

/-- Witness for C6: two chunks of shapes (3, 2) and (2, 2) with dtype
ranks 1 and 3 combine to shape (5, 2), size 10 and dtype rank 3. -/
theorem vd_init_shape_size_dtype_witness :
    vdInit [⟨[3, 2], 1⟩, ⟨[2, 2], 3⟩]
      = .ok { M := 5, N := 2, shape := (5, 2), size := 10, dtype := 3 }
    ∧ (3 ∈ [⟨[3, 2], 1⟩, ⟨[2, 2], 3⟩].map NpChunk.dtype
        ∧ ∀ d ∈ [⟨[3, 2], 1⟩, ⟨[2, 2], 3⟩].map NpChunk.dtype, d ≤ 3) := by
  obtain ⟨meta, hinit, hshape, hsize, hmem, hle⟩ :=
    vd_init_shape_size_dtype [⟨[3, 2], 1⟩, ⟨[2, 2], 3⟩] ⟨[3, 2], 1⟩ [⟨[2, 2], 3⟩]
      rfl (by decide) (by decide)
  have hmeta : meta = { M := 5, N := 2, shape := (5, 2), size := 10, dtype := 3 } := by
    have : vdInit [⟨[3, 2], 1⟩, ⟨[2, 2], 3⟩]
        = .ok { M := 5, N := 2, shape := (5, 2), size := 10, dtype := 3 } := rfl
    exact Except.ok.inj (this.symm.trans hinit).symm
  subst hmeta
  exact ⟨hinit, hmem, hle⟩

/-! ## BaseData lifecycle: copy and destruction -/

/-- A data buffer owned by a data object: either a single-file memory map
(an `open_memmap` handle with its backing path and array payload) or a
multi-chunk `VirtualData`. -/
inductive DataBuffer (α : Type) where
  | memmap (filename : String) (payload : Mat α)
  | virt (vd : VirtualData α)
deriving DecidableEq, Repr

/-- The attributes of a data object that `copy` and `__del__` touch:
`_filename` (the backing temp file), `_data`, `_sampleinfo` and
`_trialinfo`. -/
structure BaseDataObj (α : Type) where
  filename : String
  data : Option (DataBuffer α)
  sampleinfo : Option (Mat Int)
  trialinfo : Option (Mat Int)
deriving DecidableEq, Repr

/-- The on-disk state: an association list from path to file contents,
file contents abstracted as byte lists; a later entry is shadowed by an
earlier one with the same path. -/
abbrev FileStore := List (String × List Nat)

/-- Contents of the file at a path (empty if absent). -/
def fsRead (fs : FileStore) (p : String) : List Nat :=
  ((fs.find? (fun e => e.1 == p)).map Prod.snd).getD []

/-- Create or overwrite the file at a path. -/
def fsWrite (fs : FileStore) (p : String) (v : List Nat) : FileStore :=
  (p, v) :: fs

/-- Whether a file exists at a path. -/
def fsExists (fs : FileStore) (p : String) : Bool :=
  fs.any (fun e => e.1 == p)

/-- Remove the file at a path (`os.unlink`). -/
def fsDelete (fs : FileStore) (p : String) : FileStore :=
  fs.filter (fun e => e.1 != p)

theorem fsRead_write_same (fs : FileStore) (p : String) (v : List Nat) :
    fsRead (fsWrite fs p v) p = v := by
  simp [fsRead, fsWrite, List.find?]

theorem fsRead_write_ne (fs : FileStore) (p q : String) (v : List Nat)
    (h : q ≠ p) : fsRead (fsWrite fs p v) q = fsRead fs q := by
  unfold fsRead fsWrite
  rw [List.find?_cons_of_neg]
  simp [Ne.symm h]

theorem fsExists_delete (fs : FileStore) (p : String) :
    fsExists (fsDelete fs p) p = false := by
  unfold fsExists fsDelete
  rw [Bool.eq_false_iff]
  intro h
  obtain ⟨e, he, heq⟩ := List.any_eq_true.mp h
  obtain ⟨-, hne⟩ := List.mem_filter.mp he
  rw [bne_iff_ne] at hne
  exact hne (by simpa using heq)

/-- Result of `BaseData.copy`: the copied object, the bare `return`
(Python None) taken after the VirtualData warning, or the AttributeError
that a deep copy of a data-less object raises at `self.data.flush()`. -/
inductive CopyResult (α : Type) where
  | copied (obj : BaseDataObj α)
  | noneResult
  | attrError
deriving DecidableEq, Repr

/-- `BaseData.copy(deep)`: `copy.copy(self)` duplicates the wrapper with
the same buffer references; for a deep copy of a `VirtualData`-backed
object `spw_warning` is emitted and the method returns None; otherwise the
buffer is flushed, a fresh temp filename (`_gen_filename()`) is assigned to
the copy and the backing file is byte-copied (`shutil.copyfile`).  Returns
the result, the updated file store and whether a warning was emitted. -/
def copyMethod {α : Type} (obj : BaseDataObj α) (deep : Bool) (fresh : String)
    (fs : FileStore) : CopyResult α × FileStore × Bool :=
  if deep then
    match obj.data with
    | some (.virt _) => (.noneResult, fs, true)
    | some (.memmap _ _) =>
        (.copied { obj with filename := fresh },
         fsWrite fs fresh (fsRead fs obj.filename), false)
    | none => (.attrError, fs, false)
  else (.copied obj, fs, false)

/-- C7: deep-copying an object backed by a single real file returns a new
object whose filename is the freshly generated temp name and so differs
from the source's, while its data buffer, sampleinfo and trial-definition
contents are identical to the source's and the new backing file holds
exactly the bytes of the source's backing file; the source object and its
backing file are left unchanged.  (That `_gen_filename()` produces a name
different from the source's - hypothesis `hfresh` - is what its random
4-byte digest guarantees statistically.) -/
theorem basedata_deep_copy_single_file {α : Type} (obj : BaseDataObj α)
    (f : String) (payload : Mat α) (fresh : String) (fs : FileStore)
    (hdata : obj.data = some (.memmap f payload))
    (hfresh : fresh ≠ obj.filename) :
    ∃ (cpy : BaseDataObj α) (fs' : FileStore),
      copyMethod obj true fresh fs = (.copied cpy, fs', false)
      ∧ cpy.filename = fresh
      ∧ cpy.filename ≠ obj.filename
      ∧ cpy.data = obj.data
      ∧ cpy.sampleinfo = obj.sampleinfo
      ∧ cpy.trialinfo = obj.trialinfo
      ∧ fsRead fs' cpy.filename = fsRead fs obj.filename
      ∧ fsRead fs' obj.filename = fsRead fs obj.filename := by
  refine ⟨{ obj with filename := fresh },
    fsWrite fs fresh (fsRead fs obj.filename), ?_, rfl, hfresh, rfl, rfl, rfl,
    fsRead_write_same fs fresh (fsRead fs obj.filename),
    fsRead_write_ne fs fresh obj.filename (fsRead fs obj.filename) (Ne.symm hfresh)⟩
  unfold copyMethod
  rw [hdata]
  rfl

/-- Concrete single-file-backed object used as witness input. -/
def objWitness : BaseDataObj Int :=
  { filename := "/spw/spy_aa.npy",
    data := some (.memmap "/spw/spy_aa.npy" [[1, 2]]),
    sampleinfo := some [[0, 5]],
    trialinfo := some [[1]] }

/-- Witness for C7 on a concrete object, fresh name and file store. -/
theorem basedata_deep_copy_single_file_witness :
    ∃ (cpy : BaseDataObj Int) (fs' : FileStore),
      copyMethod objWitness true "/spw/spy_bb.npy" [("/spw/spy_aa.npy", [9, 9])]
        = (.copied cpy, fs', false)
      ∧ cpy.filename = "/spw/spy_bb.npy"
      ∧ cpy.filename ≠ objWitness.filename
      ∧ cpy.data = objWitness.data
      ∧ cpy.sampleinfo = objWitness.sampleinfo
      ∧ cpy.trialinfo = objWitness.trialinfo
      ∧ fsRead fs' cpy.filename
          = fsRead [("/spw/spy_aa.npy", [9, 9])] objWitness.filename
      ∧ fsRead fs' objWitness.filename
          = fsRead [("/spw/spy_aa.npy", [9, 9])] objWitness.filename :=
  basedata_deep_copy_single_file objWitness "/spw/spy_aa.npy" [[1, 2]]
    "/spw/spy_bb.npy" [("/spw/spy_aa.npy", [9, 9])] rfl (by decide)

/-- C8: deep copy of a VirtualData-backed object does not raise: it emits
a warning and returns the Python None (an empty result), leaving the file
store - and, the method making no other assignment, the object - unchanged. -/
theorem basedata_deep_copy_virtual_unsupported {α : Type} (obj : BaseDataObj α)
    (vd : VirtualData α) (fresh : String) (fs : FileStore)
    (hdata : obj.data = some (.virt vd)) :
    copyMethod obj true fresh fs = (.noneResult, fs, true) := by
  unfold copyMethod
  rw [hdata]
  rfl

/-- Concrete VirtualData-backed object used as witness input. -/
def objVirtWitness : BaseDataObj Int :=
  { filename := "/spw/spy_cc.npy",
    data := some (.virt vdWitness),
    sampleinfo := none,
    trialinfo := none }

/-- Witness for C8 on a concrete VirtualData-backed object. -/
theorem basedata_deep_copy_virtual_unsupported_witness :
    copyMethod objVirtWitness true "/spw/spy_dd.npy" [("/spw/spy_cc.npy", [3])]
      = (.noneResult, [("/spw/spy_cc.npy", [3])], true) :=
  basedata_deep_copy_virtual_unsupported objVirtWitness vdWitness
    "/spw/spy_dd.npy" [("/spw/spy_cc.npy", [3])] rfl

/-- Python substring containment `needle in hay` on file paths, as used by
`__storage__ in self._filename`. -/
def strContains (needle hay : String) : Bool :=
  (List.range (hay.toList.length + 1)).any
    (fun i => needle.toList.isPrefixOf (hay.toList.drop i))

/-- A path lying under the managed storage root: the root followed by the
path separator is a prefix of the path, as `_gen_filename` produces via
`os.path.join(__storage__, "spy_....npy")`. -/
def underRoot (storage fn : String) : Bool :=
  (storage ++ "/").toList.isPrefixOf fn.toList

/-- `BaseData.__del__`: if `__storage__ in self._filename` (a substring
test) and the file still exists, the buffer reference is dropped and the
file is unlinked (`os.unlink`); otherwise nothing happens on disk. -/
def delMethod (filename storage : String) (fs : FileStore) : FileStore :=
  if strContains storage filename && fsExists fs filename then
    fsDelete fs filename
  else fs

/-- Counterexample for C9 as frozen: with storage root "/spw", the
user-supplied backing file "/data/spw.bak" does NOT lie under the managed
root, yet destruction deletes it, because the destructor's test is
substring containment ("/spw" occurs inside "/data/spw.bak"), not
path-prefix containment.  So "deleted iff under the root" fails, as does
"user files outside the root are left untouched". -/
theorem basedata_del_substring_counterexample :
    underRoot "/spw" "/data/spw.bak" = false
    ∧ fsExists [("/data/spw.bak", [7, 7])] "/data/spw.bak" = true
    ∧ delMethod "/data/spw.bak" "/spw" [("/data/spw.bak", [7, 7])] = []
    ∧ fsExists (delMethod "/data/spw.bak" "/spw" [("/data/spw.bak", [7, 7])])
        "/data/spw.bak" = false :=
  ⟨rfl, rfl, rfl, rfl⟩

/-- C9 (amended): on destruction the backing file is deleted if and only
if the storage-root path occurs as a substring of the backing path and the
file still exists on disk.  Every managed temp file - created directly
under the root by `_gen_filename` - passes the substring test and is
reclaimed; but because the test is substring containment rather than
path-prefix containment, a user-supplied file outside the managed root
whose path happens to contain the root string is deleted as well (see the
counterexample); user files whose paths avoid the root string are left
untouched. -/
theorem basedata_del_amended (filename storage : String) (fs : FileStore) :
    ((strContains storage filename && fsExists fs filename) = true →
      fsExists (delMethod filename storage fs) filename = false)
    ∧ ((strContains storage filename && fsExists fs filename) = false →
      delMethod filename storage fs = fs)
    ∧ (underRoot storage filename = true → strContains storage filename = true) := by
  refine ⟨?_, ?_, ?_⟩
  · intro h
    unfold delMethod
    rw [if_pos h]
    exact fsExists_delete fs filename
  · intro h
    unfold delMethod
    rw [if_neg (by rw [h]; exact Bool.false_ne_true)]
  · intro h
    unfold strContains
    rw [List.any_eq_true]
    refine ⟨0, List.mem_range.mpr (by omega), ?_⟩
    rw [List.drop_zero, List.isPrefixOf_iff_prefix]
    unfold underRoot at h
    rw [List.isPrefixOf_iff_prefix] at h
    refine List.IsPrefix.trans ?_ h
    have : (storage ++ "/").toList = storage.toList ++ "/".toList := by
      simp [String.toList]
    rw [this]
    exact List.prefix_append storage.toList "/".toList

/-- Witness for C9 (amended): a managed temp file under "/spw" is deleted;
a file whose path avoids the root string is untouched; the managed file
passes the substring test. -/
theorem basedata_del_amended_witness :
    fsExists (delMethod "/spw/spy_ab.npy" "/spw" [("/spw/spy_ab.npy", [1])])
        "/spw/spy_ab.npy" = false
    ∧ delMethod "/other/file.npy" "/spw" [("/x", [2])] = [("/x", [2])]
    ∧ strContains "/spw" "/spw/spy_ab.npy" = true := by
  refine ⟨(basedata_del_amended "/spw/spy_ab.npy" "/spw"
      [("/spw/spy_ab.npy", [1])]).1 (by decide),
    (basedata_del_amended "/other/file.npy" "/spw" [("/x", [2])]).2.1 (by decide),
    (basedata_del_amended "/spw/spy_ab.npy" "/spw" []).2.2 (by decide)⟩

end SpykeWave
